import Mathlib

/-!
Verification of the numerical core of `pycheops/models.py`:
the transit/eclipse flux kernels `qpower2` and `ueclipse` and the
depth-scaling estimators `scaled_transit_fit` and `minerr_transit_fit`.

Embedding conventions:
* numpy arrays become `List ℝ`; element-wise numpy arithmetic becomes
  `List.map` / `List.zipWith`;
* IEEE floating point becomes real arithmetic (division by zero is the
  junk value `0`, as in Mathlib's `ℝ`);
* the NaN-sentinel tuple returns of `scaled_transit_fit` become `none`;
* `raise ValueError` in `ueclipse` becomes `Except.error`;
* the two `while` loops of `minerr_transit_fit`'s bracketing step are
  translated with an explicit fuel parameter (the halving loop provably
  terminates within 17 iterations from its entry point `s_mid = 0.5`);
  the downstream `scipy.optimize.brent`/`brentq` stage is an external
  collaborator and is represented by the `MinerrOutcome.optimize`
  constructor carrying the bracket that would be handed to it.
-/

namespace Pycheops

/-- Per-element body of the `qpower2` loop (models.py lines 89–123), as a
function of `zt = |zi|`; the source computes `zt = np.abs(zi)` first and
uses only `zt` afterwards.  The loop-invariant values `I_0` (line 87) and
`g` (line 88) are inlined. -/
noncomputable def qpower2_abs (k c a zt : ℝ) : ℝ :=
  let I_0 := (a + 2) / (Real.pi * (a - c * a + 2))
  let g := 0.5 * a
  if zt ≤ 1 - k then
    let s := 1 - zt ^ 2
    let c0 := 1 - c + c * s ^ g
    let c2 := 0.5 * a * c * s ^ (g - 2) * ((a - 1) * zt ^ 2 - 1)
    1 - I_0 * Real.pi * k ^ 2 *
      (c0 + 0.25 * k ^ 2 * c2 - 0.125 * a * c * k ^ 2 * s ^ (g - 1))
  else if |zt - 1| < k then
    let d := (zt ^ 2 - k ^ 2 + 1) / (2 * zt)
    let ra := 0.5 * (zt - k + d)
    let rb := 0.5 * (1 + d)
    let sa := 1 - ra ^ 2
    let sb := 1 - rb ^ 2
    let q := min (max (-1) ((zt - d) / k)) 1
    let w2 := k ^ 2 - (d - zt) ^ 2
    let w := Real.sqrt w2
    let b0 := 1 - c + c * sa ^ g
    let b1 := -a * c * ra * sa ^ (g - 1)
    let b2 := 0.5 * a * c * sa ^ (g - 2) * ((a - 1) * ra ^ 2 - 1)
    let a0 := b0 + b1 * (zt - ra) + b2 * (zt - ra) ^ 2
    let a1 := b1 + 2 * b2 * (zt - ra)
    let aq := Real.arccos q
    let J1 := (a0 * (d - zt) - (2 / 3) * a1 * w2 +
        0.25 * b2 * (d - zt) * (2 * (d - zt) ^ 2 - k ^ 2)) * w +
      (a0 * k ^ 2 + 0.25 * b2 * k ^ 4) * aq
    let J2 := a * c * sa ^ (g - 1) * k ^ 4 *
      (0.125 * aq + (1 / 12) * q * (q ^ 2 - 2.5) * Real.sqrt (max 0 (1 - q ^ 2)))
    let d0 := 1 - c + c * sb ^ g
    let d1 := -a * c * rb * sb ^ (g - 1)
    let K1 := (d0 - rb * d1) * Real.arccos d +
      ((rb * d + (2 / 3) * (1 - d ^ 2)) * d1 - d * d0) * Real.sqrt (max 0 (1 - d ^ 2))
    let K2 := (1 / 3) * c * a * sb ^ (g + 0.5) * (1 - d)
    1 - I_0 * (J1 - J2 + K1 - K2)
  else 1

/-- The `qpower2(z, k, c, a)` kernel (models.py lines 44–124): the output
array `f = np.ones_like(z)` is overwritten element-wise, each element
entering only through `zt = np.abs(zi)` (line 90); entries in neither
overlap regime keep the pre-initialized value `1`. -/
noncomputable def qpower2 (z : List ℝ) (k c a : ℝ) : List ℝ :=
  z.map fun zi => qpower2_abs k c a |zi|

/-- Per-element body of the `ueclipse` loop (models.py lines 262–270), as a
function of `zt = |zi|`. -/
noncomputable def ueclipse_abs (k zt : ℝ) : ℝ :=
  if zt ≤ 1 - k then 0
  else if |zt - 1| < k then
    let t1 := Real.arccos (min (max (-1) ((zt ^ 2 + k ^ 2 - 1) / (2 * zt * k))) 1)
    let t2 := Real.arccos (min (max (-1) ((zt ^ 2 + 1 - k ^ 2) / (2 * zt))) 1)
    let t3 := 0.5 * Real.sqrt (max 0 ((1 + k - zt) * (zt + k - 1) * (zt - k + 1) * (zt + k + 1)))
    1 - (k ^ 2 * t1 + t2 - t3) / (Real.pi * k ^ 2)
  else 1

/-- The `ueclipse(z, k)` kernel (models.py lines 248–271): it raises
`ValueError("ueclipse requires k < 1")` when `k > 1` (lines 258–259),
before any array is allocated; otherwise it maps the per-element body
over `z` (the output is pre-initialized to `1`). -/
noncomputable def ueclipse (z : List ℝ) (k : ℝ) : Except String (List ℝ) :=
  if k > 1 then Except.error "ueclipse requires k < 1"
  else Except.ok (z.map fun zi => ueclipse_abs k |zi|)

/-- Weights `w = 1/sigma**2` (models.py line 150); a scalar `sigma` is the
uniform list. -/
noncomputable def wts (sigma : List ℝ) : List ℝ := sigma.map fun si => 1 / si ^ 2

/-- The weighted sum `_m = np.sum(w*(model-1)**2)` (models.py line 151). -/
noncomputable def mSum (sigma model : List ℝ) : ℝ :=
  (List.zipWith (fun wi mi => wi * (mi - 1) ^ 2) (wts sigma) model).sum

/-- The numerator `np.sum(w*(model-1)*(flux-1))` of `s` (models.py line 154). -/
noncomputable def sNum (flux sigma model : List ℝ) : ℝ :=
  (List.zipWith (fun wi p => wi * (p.1 - 1) * (p.2 - 1)) (wts sigma) (model.zip flux)).sum

/-- The fitted scale `s` (models.py line 154). -/
noncomputable def sHat (flux sigma model : List ℝ) : ℝ :=
  sNum flux sigma model / mSum sigma model

/-- The residual chi-square `chisq = np.sum(w*((flux-1)-s*(model-1))**2)`
(models.py line 155). -/
noncomputable def chisqOf (flux sigma model : List ℝ) : ℝ :=
  (List.zipWith (fun wi p => wi * ((p.2 - 1) - sHat flux sigma model * (p.1 - 1)) ^ 2)
    (wts sigma) (model.zip flux)).sum

/-- The error-rescaling factor `b = np.sqrt(chisq/N)` (models.py line 156). -/
noncomputable def bHat (flux sigma model : List ℝ) : ℝ :=
  Real.sqrt (chisqOf flux sigma model / (flux.length : ℝ))

/-- The standard error `sigma_s = b/np.sqrt(_m)` (models.py line 157). -/
noncomputable def sigmaS (flux sigma model : List ℝ) : ℝ :=
  bHat flux sigma model / Real.sqrt (mSum sigma model)

/-- The curvature term `_t = 3*chisq/b**4 - N/b**2` (models.py line 158). -/
noncomputable def tTerm (flux sigma model : List ℝ) : ℝ :=
  3 * chisqOf flux sigma model / bHat flux sigma model ^ 4 -
    (flux.length : ℝ) / bHat flux sigma model ^ 2

/-- The standard error `sigma_b = 1/np.sqrt(_t)` (models.py line 160). -/
noncomputable def sigmaB (flux sigma model : List ℝ) : ℝ :=
  1 / Real.sqrt (tTerm flux sigma model)

/-- `scaled_transit_fit(flux, sigma, model)` (models.py lines 126–163).
The three NaN-sentinel returns (`N < 3` at line 147, `_m == 0` at line 152,
`_t <= 0` at line 162) become `none`; the normal return at line 163 becomes
`some (s, b, sigma_s, sigma_b)`. -/
noncomputable def scaled_transit_fit (flux sigma model : List ℝ) :
    Option (ℝ × ℝ × ℝ × ℝ) :=
  if flux.length < 3 then none
  else if mSum sigma model = 0 then none
  else if tTerm flux sigma model > 0 then
    some (sHat flux sigma model, bHat flux sigma model,
      sigmaS flux sigma model, sigmaB flux sigma model)
  else none

/-- Machine epsilon `np.finfo(0.0).eps = 2**-52` used in the guarded
log-likelihood formula (models.py line 201). -/
noncomputable def machineEps : ℝ := ((2 : ℝ) ^ (52 : ℕ))⁻¹

/-- Per-point contribution to `_negloglike` (models.py lines 196–203):
for residual ratio squared `Rsq = ((1 + s*(model-1) - flux)/sigma)**2`,
the contribution is `log((1-exp(-0.5*Rsq))/Rsq)` when `Rsq` exceeds
machine epsilon and the degenerate limit `log(0.5)` otherwise. -/
noncomputable def nllTerm (s fi si mi : ℝ) : ℝ :=
  let mi' := 1 + s * (mi - 1)
  let Rsq := ((mi' - fi) / si) ^ 2
  if Rsq > machineEps then Real.log ((1 - Real.exp (-0.5 * Rsq)) / Rsq)
  else Real.log 0.5

/-- `_negloglike(s, flux, sigma, model)` (models.py lines 196–203): minus
the sum of the per-point contributions. -/
noncomputable def negloglike (s : ℝ) (flux sigma model : List ℝ) : ℝ :=
  -(List.zipWith (fun fi p => nllTerm s fi p.1 p.2) flux (sigma.zip model)).sum

/-- The hard underflow floor `2**-16` of the halving bracket search
(models.py line 228). -/
noncomputable def underflowFloor : ℝ := (2 : ℝ) ^ (-16 : ℤ)

/-- Outcome of one of the two bracket-search loops of
`minerr_transit_fit`. -/
inductive BracketResult where
  | underflow : BracketResult
  | bracket (s_mid : ℝ) : BracketResult
  | fuelOut : BracketResult

/-- The doubling loop `while fc < fb: s_max = 2*s_max; fc = f(s_max)`
(models.py lines 219–221), started at `s_max = 2`.  The loop has no
intrinsic bound, so it is translated with explicit fuel; `none` marks
fuel exhaustion. -/
noncomputable def bracketDouble (f : ℝ → ℝ) (fb : ℝ) : ℕ → ℝ → Option ℝ
  | 0, _ => none
  | fuel + 1, s_max =>
    if f s_max < fb then bracketDouble f fb fuel (2 * s_max) else some s_max

/-- The halving loop `while fb > fa: if s_mid < 2**-16: return 0,0;
s_mid = 0.5*s_mid; fb = f(s_mid)` (models.py lines 227–231), started at
`s_mid = 0.5`.  From that entry point the loop provably runs at most 17
iterations before hitting the underflow floor, so any fuel of at least 17
is faithful; `fuelOut` is unreachable from the entry point with such
fuel. -/
noncomputable def bracketHalve (f : ℝ → ℝ) (fa : ℝ) : ℕ → ℝ → BracketResult
  | 0, _ => BracketResult.fuelOut
  | fuel + 1, s_mid =>
    if f s_mid > fa then
      if s_mid < underflowFloor then BracketResult.underflow
      else bracketHalve f fa fuel (0.5 * s_mid)
    else BracketResult.bracket s_mid

/-- What `minerr_transit_fit` does before handing over to the external
`scipy.optimize.brent`/`brentq` stage: `nanPair` is the `(nan, nan)`
return for `N < 3` (line 194), `result s s_err` is a direct `(s, s_err)`
return (the `(0, 0)` returns at lines 209 and 229), and
`optimize s_min s_mid s_max` records the three-point bracket passed to
`brent` at lines 234–235. -/
inductive MinerrOutcome where
  | nanPair : MinerrOutcome
  | result (s s_err : ℝ) : MinerrOutcome
  | optimize (s_min s_mid s_max : ℝ) : MinerrOutcome
  | fuelOut : MinerrOutcome

/-- `minerr_transit_fit(flux, sigma, model)` (models.py lines 166–246) up
to the hand-off to the external 1-D minimizer: the `N < 3` check
(line 193), the `np.min(model) == 1` early return (lines 208–209), and
the bracketing step (lines 211–231). -/
noncomputable def minerr_transit_fit (fuel : ℕ) (flux sigma model : List ℝ) :
    MinerrOutcome :=
  if flux.length < 3 then MinerrOutcome.nanPair
  else if model.min? = some 1 then MinerrOutcome.result 0 0
  else
    let f := fun s => negloglike s flux sigma model
    let fa := f 0
    let fb := f 1
    if fb < fa then
      match bracketDouble f fb fuel 2 with
      | some s_max => MinerrOutcome.optimize 0 1 s_max
      | none => MinerrOutcome.fuelOut
    else
      match bracketHalve f fa fuel 0.5 with
      | BracketResult.underflow => MinerrOutcome.result 0 0
      | BracketResult.bracket s_mid => MinerrOutcome.optimize 0 s_mid 1
      | BracketResult.fuelOut => MinerrOutcome.fuelOut

/-- C7: for every separation array `z` and every `k > 1`, `ueclipse(z, k)`
raises an error before any array work, and for `k ≤ 1` the check never
fires: the call errors exactly when `1 < k`. -/
theorem C7_theorem (z : List ℝ) (k : ℝ) :
    (∃ e, ueclipse z k = Except.error e) ↔ 1 < k := by
  unfold ueclipse
  by_cases h : k > 1
  · rw [if_pos h]
    exact iff_of_true ⟨"ueclipse requires k < 1", rfl⟩ h
  · rw [if_neg h]
    constructor
    · rintro ⟨e, he⟩
      exact Except.noConfusion he
    · intro h1
      exact absurd h1 h

/-- C2 counterexample: the claim says every negative `k` is rejected by
`ueclipse`'s explicit validation, but the only check in the source is
`if (k > 1)` (line 258): at `k = -1/2` the call succeeds and returns the
computed flux array (here `[0]`, full occultation at `z = 0`). -/
theorem C2_counterexample :
    ueclipse [0] (-(1 : ℝ) / 2) = Except.ok [0] := by
  unfold ueclipse
  rw [if_neg (by norm_num : ¬ (-(1 : ℝ) / 2) > 1)]
  have h : ueclipse_abs (-(1 : ℝ) / 2) 0 = 0 := by
    unfold ueclipse_abs
    rw [if_pos (by norm_num : (0 : ℝ) ≤ 1 - -(1 : ℝ) / 2)]
  simp [h]

/-- C2 (amended): `ueclipse`'s explicit validation rejects only `k > 1`;
for every negative `k` (indeed for every `k ≤ 1`) no error is raised and
the element-wise flux array is returned. -/
theorem C2_theorem (z : List ℝ) (k : ℝ) (hk : k < 0) :
    ueclipse z k = Except.ok (z.map fun zi => ueclipse_abs k |zi|) := by
  unfold ueclipse
  rw [if_neg (by linarith : ¬ k > 1)]

/-- C2 witness: the amended theorem applied at `z = [1]`, `k = -1`. -/
theorem C2_witness :
    ((-1 : ℝ) < 0) ∧
      ueclipse [1] (-1) = Except.ok ([1].map fun zi => ueclipse_abs (-1) |zi|) :=
  ⟨by norm_num, C2_theorem [1] (-1) (by norm_num)⟩

/-- C9: for `k ∈ (0, 1)`, every entry of `z` with `|zi| > 1 + k` yields
output exactly `1` in both `qpower2(z, k, c, a)` (any `c`, `a`) and
`ueclipse(z, k)`: neither overlap branch fires, so the entry keeps the
pre-initialized value `1`. -/
theorem C9_theorem (z : List ℝ) (k c a zi : ℝ) (i : ℕ)
    (hk0 : 0 < k) (hk1 : k < 1) (hzi : z[i]? = some zi) (hz : 1 + k < |zi|) :
    (qpower2 z k c a)[i]? = some 1 ∧
      ∃ fl, ueclipse z k = Except.ok fl ∧ fl[i]? = some 1 := by
  have h1 : ¬ |zi| ≤ 1 - k := by
    push_neg
    linarith
  have h2 : ¬ |abs zi - 1| < k := by
    rw [not_lt, abs_of_nonneg (by linarith : (0 : ℝ) ≤ abs zi - 1)]
    linarith
  have hq : qpower2_abs k c a |zi| = 1 := by
    unfold qpower2_abs
    rw [if_neg h1, if_neg h2]
  have hu : ueclipse_abs k |zi| = 1 := by
    unfold ueclipse_abs
    rw [if_neg h1, if_neg h2]
  refine ⟨?_, z.map fun zj => ueclipse_abs k |zj|, ?_, ?_⟩
  · rw [qpower2, List.getElem?_map, hzi, Option.map_some', hq]
  · unfold ueclipse
    rw [if_neg (by linarith : ¬ k > 1)]
  · rw [List.getElem?_map, hzi, Option.map_some', hu]

/-- C9 witness: the caller sentinel `z = 9999` with `k = 1/2`, `c = 1/2`,
`a = 7/10` produces flux exactly `1` in both kernels. -/
theorem C9_witness :
    (qpower2 [9999] (1 / 2) (1 / 2) (7 / 10))[0]? = some 1 ∧
      ∃ fl, ueclipse [9999] (1 / 2) = Except.ok fl ∧ fl[0]? = some 1 :=
  C9_theorem [9999] (1 / 2) (1 / 2) (7 / 10) 9999 0 (by norm_num) (by norm_num)
    rfl (by rw [show |(9999 : ℝ)| = 9999 from abs_of_nonneg (by norm_num)]; norm_num)

/-- C10: both kernels are sign-symmetric in the separation, because each
element is processed only through its absolute value (lines 90 and 263):
negating every entry of `z` leaves the outputs unchanged. -/
theorem C10_theorem (z : List ℝ) (k c a : ℝ) :
    qpower2 (z.map fun zi => -zi) k c a = qpower2 z k c a ∧
      ueclipse (z.map fun zi => -zi) k = ueclipse z k := by
  constructor
  · simp [qpower2, List.map_map, Function.comp_def, abs_neg]
  · simp [ueclipse, List.map_map, Function.comp_def, abs_neg]

/-- With `flux = model` the numerator of `s` collapses to the weighted sum
of squared `(model - 1)`. -/
theorem zipWith_zip_self (w l : List ℝ) :
    List.zipWith (fun wi p => wi * (p.1 - 1) * (p.2 - 1)) w (l.zip l) =
      List.zipWith (fun wi mi => wi * (mi - 1) ^ 2) w l := by
  induction w generalizing l with
  | nil => simp
  | cons a as ih =>
    cases l with
    | nil => simp
    | cons x xs =>
      simp only [List.zip_cons_cons, List.zipWith_cons_cons, ih]
      congr 1
      ring

/-- With `flux = model` and scale `1` every weighted residual vanishes. -/
theorem zipWith_chisq_self (w l : List ℝ) :
    (List.zipWith (fun wi p => wi * ((p.2 - 1) - 1 * (p.1 - 1)) ^ 2) w (l.zip l)).sum = 0 := by
  induction w generalizing l with
  | nil => simp
  | cons a as ih =>
    cases l with
    | nil => simp
    | cons x xs =>
      simp only [List.zip_cons_cons, List.zipWith_cons_cons, List.sum_cons]
      rw [ih]
      ring

/-- Weighted sums of squared residuals are nonnegative (weights are
`1/sigma**2 ≥ 0`). -/
theorem sum_wres_nonneg (s : ℝ) (sig : List ℝ) :
    ∀ pl : List (ℝ × ℝ),
      0 ≤ (List.zipWith (fun wi p => wi * ((p.2 - 1) - s * (p.1 - 1)) ^ 2)
        (sig.map fun si => 1 / si ^ 2) pl).sum := by
  induction sig with
  | nil => intro pl; simp
  | cons a as ih =>
    intro pl
    cases pl with
    | nil => simp
    | cons p ps =>
      simp only [List.map_cons, List.zipWith_cons_cons, List.sum_cons]
      have h1 : 0 ≤ 1 / a ^ 2 * ((p.2 - 1) - s * (p.1 - 1)) ^ 2 :=
        mul_nonneg (div_nonneg zero_le_one (sq_nonneg a)) (sq_nonneg _)
      have h2 := ih ps
      linarith

/-- The residual chi-square of `scaled_transit_fit` is nonnegative. -/
theorem chisq_nonneg (flux sigma model : List ℝ) : 0 ≤ chisqOf flux sigma model := by
  unfold chisqOf wts
  exact sum_wres_nonneg _ sigma (model.zip flux)

/-- C5: `scaled_transit_fit` returns the NaN-sentinel tuple (`none`), and
never raises, exactly when fewer than 3 data points are given, or
`Σ w (model-1)²` is exactly zero, or the curvature term
`3·chisq/b⁴ − N/b²` is non-positive; in every other case it returns the
finite formula values `(s, b, sigma_s, sigma_b)`. -/
theorem C5_theorem (flux sigma model : List ℝ) :
    scaled_transit_fit flux sigma model =
      if flux.length < 3 ∨ mSum sigma model = 0 ∨ tTerm flux sigma model ≤ 0
      then none
      else some (sHat flux sigma model, bHat flux sigma model,
        sigmaS flux sigma model, sigmaB flux sigma model) := by
  unfold scaled_transit_fit
  by_cases h1 : flux.length < 3
  · rw [if_pos h1, if_pos (Or.inl h1)]
  · by_cases h2 : mSum sigma model = 0
    · rw [if_neg h1, if_pos h2, if_pos (Or.inr (Or.inl h2))]
    · by_cases h3 : tTerm flux sigma model > 0
      · rw [if_neg h1, if_neg h2, if_pos h3, if_neg]
        rintro (h | h | h)
        · exact h1 h
        · exact h2 h
        · exact absurd h3 (not_lt.mpr h)
      · rw [if_neg h1, if_neg h2, if_neg h3,
          if_pos (Or.inr (Or.inr (not_lt.mp h3)))]

/-- C1 counterexample: at `flux = model = [9/10, 1, 11/10]` with uniform
`sigma = 1` (zero residual, model not everywhere 1, N = 3), the claim says
`scaled_transit_fit` returns `s = 1` and `b = 0`; in fact `b = 0` makes the
curvature term collapse and the function returns the NaN sentinel. -/
theorem C1_counterexample :
    scaled_transit_fit [9/10, 1, 11/10] [1, 1, 1] [9/10, 1, 11/10] = none := by
  have hw : wts [1, 1, 1] = [1, 1, 1] := by norm_num [wts]
  have hm : mSum [1, 1, 1] [9/10, 1, 11/10] = 1/50 := by
    norm_num [mSum, hw]
  have hn : sNum [9/10, 1, 11/10] [1, 1, 1] [9/10, 1, 11/10] = 1/50 := by
    norm_num [sNum, hw]
  have hs : sHat [9/10, 1, 11/10] [1, 1, 1] [9/10, 1, 11/10] = 1 := by
    unfold sHat
    rw [hn, hm]
    norm_num
  have hc : chisqOf [9/10, 1, 11/10] [1, 1, 1] [9/10, 1, 11/10] = 0 := by
    unfold chisqOf
    rw [hs, hw]
    norm_num
  have hb : bHat [9/10, 1, 11/10] [1, 1, 1] [9/10, 1, 11/10] = 0 := by
    unfold bHat
    rw [hc]
    simp
  have ht : tTerm [9/10, 1, 11/10] [1, 1, 1] [9/10, 1, 11/10] = 0 := by
    unfold tTerm
    rw [hc, hb]
    norm_num
  unfold scaled_transit_fit
  rw [if_neg (by norm_num), if_neg (by rw [hm]; norm_num),
    if_neg (by rw [ht]; norm_num)]

/-- C1 (amended): with `flux = model` exactly and uniform positive `sigma`
(model not flat, at least 3 points), the internal least-squares solution
is `s = 1` and `b = 0`, but `scaled_transit_fit` does not return them: the
curvature term is non-positive (division by `b = 0`), so the NaN-sentinel
tuple (`none`) is returned instead. -/
theorem C1_theorem (flux sigma model : List ℝ) (σ0 : ℝ)
    (hσ : ∀ x ∈ sigma, x = σ0) (hσ0 : 0 < σ0) (hN : 3 ≤ flux.length)
    (hm : mSum sigma model ≠ 0) (hfm : flux = model) :
    sHat flux sigma model = 1 ∧ bHat flux sigma model = 0 ∧
      scaled_transit_fit flux sigma model = none := by
  subst hfm
  have hnum : sNum flux sigma flux = mSum sigma flux := by
    unfold sNum mSum
    rw [zipWith_zip_self]
  have hs : sHat flux sigma flux = 1 := by
    unfold sHat
    rw [hnum]
    exact div_self hm
  have hc : chisqOf flux sigma flux = 0 := by
    unfold chisqOf
    rw [hs]
    exact zipWith_chisq_self (wts sigma) flux
  have hb : bHat flux sigma flux = 0 := by
    unfold bHat
    rw [hc]
    simp
  have ht : tTerm flux sigma flux = 0 := by
    unfold tTerm
    rw [hc, hb]
    norm_num
  refine ⟨hs, hb, ?_⟩
  unfold scaled_transit_fit
  rw [if_neg (by omega), if_neg hm, if_neg (by rw [ht]; norm_num)]

/-- C1 witness: the amended theorem at
`flux = model = [9/10, 1, 11/10]`, `sigma = [1, 1, 1]`. -/
theorem C1_witness :
    sHat [9/10, 1, 11/10] [1, 1, 1] [9/10, 1, 11/10] = 1 ∧
      bHat [9/10, 1, 11/10] [1, 1, 1] [9/10, 1, 11/10] = 0 ∧
      scaled_transit_fit [9/10, 1, 11/10] [1, 1, 1] [9/10, 1, 11/10] = none :=
  C1_theorem [9/10, 1, 11/10] [1, 1, 1] [9/10, 1, 11/10] 1
    (by intro x hx; simpa using hx) (by norm_num) (by norm_num)
    (by norm_num [mSum, wts]) rfl

/-- C4 counterexample: at `flux = model = [1/2, 1, 3/2]`, `sigma = [1,1,1]`
all of the claim's hypotheses hold (N = 3, positive sigma,
`Σ w (model-1)² = 1/2 ≠ 0`), yet `scaled_transit_fit` does not return the
closed-form values: the residual chi-square is exactly zero, so the NaN
sentinel is returned. -/
theorem C4_counterexample :
    (∀ x ∈ ([1, 1, 1] : List ℝ), 0 < x) ∧
      mSum [1, 1, 1] [1/2, 1, 3/2] ≠ 0 ∧
      scaled_transit_fit [1/2, 1, 3/2] [1, 1, 1] [1/2, 1, 3/2] = none := by
  refine ⟨by intro x hx; simp at hx; rw [hx]; norm_num, by norm_num [mSum, wts], ?_⟩
  have hm : mSum [1, 1, 1] [1/2, 1, 3/2] ≠ 0 := by norm_num [mSum, wts]
  have hnum : sNum [1/2, 1, 3/2] [1, 1, 1] [1/2, 1, 3/2] = mSum [1, 1, 1] [1/2, 1, 3/2] := by
    unfold sNum mSum
    rw [zipWith_zip_self]
  have hs : sHat [1/2, 1, 3/2] [1, 1, 1] [1/2, 1, 3/2] = 1 := by
    unfold sHat
    rw [hnum]
    exact div_self hm
  have hc : chisqOf [1/2, 1, 3/2] [1, 1, 1] [1/2, 1, 3/2] = 0 := by
    unfold chisqOf
    rw [hs]
    exact zipWith_chisq_self (wts [1, 1, 1]) [1/2, 1, 3/2]
  have hb : bHat [1/2, 1, 3/2] [1, 1, 1] [1/2, 1, 3/2] = 0 := by
    unfold bHat
    rw [hc]
    simp
  have ht : tTerm [1/2, 1, 3/2] [1, 1, 1] [1/2, 1, 3/2] = 0 := by
    unfold tTerm
    rw [hc, hb]
    norm_num
  unfold scaled_transit_fit
  rw [if_neg (by norm_num), if_neg hm, if_neg (by rw [ht]; norm_num)]

/-- C4 (amended): for at least 3 points, positive `sigma`, nonzero
`Σ w (model-1)²`, and additionally a nonzero residual chi-square (without
which the curvature guard fires and the NaN sentinel is returned, as the
counterexample shows), `scaled_transit_fit` returns exactly
`s = Σw(m-1)(f-1) / Σw(m-1)²`, `b = sqrt(chisq/N)`, and
`sigma_s = b / sqrt(Σw(m-1)²)`. -/
theorem C4_theorem (flux sigma model : List ℝ) (hN : 3 ≤ flux.length)
    (hσ : ∀ x ∈ sigma, 0 < x) (hm : mSum sigma model ≠ 0)
    (hc : chisqOf flux sigma model ≠ 0) :
    scaled_transit_fit flux sigma model =
      some (sNum flux sigma model / mSum sigma model,
        Real.sqrt (chisqOf flux sigma model / (flux.length : ℝ)),
        Real.sqrt (chisqOf flux sigma model / (flux.length : ℝ)) /
          Real.sqrt (mSum sigma model),
        sigmaB flux sigma model) := by
  have hcpos : 0 < chisqOf flux sigma model :=
    lt_of_le_of_ne (chisq_nonneg flux sigma model) (Ne.symm hc)
  have hNpos : (0 : ℝ) < (flux.length : ℝ) := by
    have h : 0 < flux.length := by omega
    exact_mod_cast h
  have hb2 : bHat flux sigma model ^ 2 = chisqOf flux sigma model / (flux.length : ℝ) :=
    Real.sq_sqrt (le_of_lt (div_pos hcpos hNpos))
  have ht : tTerm flux sigma model = 2 * (flux.length : ℝ) ^ 2 / chisqOf flux sigma model := by
    have hc' : chisqOf flux sigma model ≠ 0 := hc
    have hN' : (flux.length : ℝ) ≠ 0 := ne_of_gt hNpos
    unfold tTerm
    rw [show bHat flux sigma model ^ 4 = (bHat flux sigma model ^ 2) ^ 2 by ring, hb2]
    field_simp
    ring
  have htpos : tTerm flux sigma model > 0 := by
    rw [ht]
    exact div_pos (mul_pos two_pos (pow_pos hNpos 2)) hcpos
  unfold scaled_transit_fit
  rw [if_neg (by omega), if_neg hm, if_pos htpos]
  rfl

/-- C4 witness: the amended theorem at the fixture
`flux = [11/10, 1, 9/10]`, `sigma = [1, 1, 1]`, `model = [9/10, 1, 1]`
(there `s = -1` and `chisq = 1/100`). -/
theorem C4_witness :
    scaled_transit_fit [11/10, 1, 9/10] [1, 1, 1] [9/10, 1, 1] =
      some (sNum [11/10, 1, 9/10] [1, 1, 1] [9/10, 1, 1] / mSum [1, 1, 1] [9/10, 1, 1],
        Real.sqrt (chisqOf [11/10, 1, 9/10] [1, 1, 1] [9/10, 1, 1] /
          (([11/10, 1, 9/10] : List ℝ).length : ℝ)),
        Real.sqrt (chisqOf [11/10, 1, 9/10] [1, 1, 1] [9/10, 1, 1] /
          (([11/10, 1, 9/10] : List ℝ).length : ℝ)) /
          Real.sqrt (mSum [1, 1, 1] [9/10, 1, 1]),
        sigmaB [11/10, 1, 9/10] [1, 1, 1] [9/10, 1, 1]) :=
  C4_theorem [11/10, 1, 9/10] [1, 1, 1] [9/10, 1, 1]
    (by norm_num)
    (by intro x hx; simp at hx; rw [hx]; norm_num)
    (by norm_num [mSum, wts])
    (by
      have hs : sHat [11/10, 1, 9/10] [1, 1, 1] [9/10, 1, 1] = -1 := by
        norm_num [sHat, sNum, mSum, wts]
      norm_num [chisqOf, hs, wts])

/-- Folding `min` over a list of ones starting from `1` yields `1`. -/
theorem foldl_min_ones : ∀ as : List ℝ, (∀ x ∈ as, x = 1) → List.foldl min 1 as = 1 := by
  intro as
  induction as with
  | nil => intro _; rfl
  | cons b bs ih =>
    intro h
    have hb : b = 1 := h b (by simp)
    subst hb
    rw [List.foldl_cons, min_self]
    exact ih fun x hx => h x (by simp [hx])

/-- The minimum of a nonempty all-ones list is `some 1`. -/
theorem min?_all_ones (l : List ℝ) (hne : l ≠ []) (h1 : ∀ x ∈ l, x = 1) :
    l.min? = some 1 := by
  cases l with
  | nil => exact absurd rfl hne
  | cons a as =>
    have ha : a = 1 := h1 a (by simp)
    subst ha
    rw [List.min?]
    rw [foldl_min_ones as fun x hx => h1 x (by simp [hx])]

/-- The underflow floor `2**-16` equals `(1/2)^16`. -/
theorem underflowFloor_eq : underflowFloor = (1 / 2 : ℝ) ^ 16 := by
  rw [underflowFloor, zpow_neg, div_pow, one_pow]
  norm_num

/-- If every trial point `(1/2)^(i+1)` down to `(1/2)^17` fails to improve
on `fa`, the halving loop of `minerr_transit_fit` hits the underflow floor
and signals the `(0, 0)` return. -/
theorem bracketHalve_underflow (f : ℝ → ℝ) (fa : ℝ) :
    ∀ j : ℕ, j ≤ 16 → ∀ fuel : ℕ, j + 1 ≤ fuel →
      (∀ i : ℕ, 16 - j ≤ i → i ≤ 16 → fa < f ((1 / 2 : ℝ) ^ (i + 1))) →
      bracketHalve f fa fuel ((1 / 2 : ℝ) ^ (16 - j + 1)) = BracketResult.underflow := by
  intro j
  induction j with
  | zero =>
    intro _ fuel hfuel h
    obtain ⟨n, rfl⟩ : ∃ n, fuel = n + 1 := ⟨fuel - 1, by omega⟩
    rw [bracketHalve]
    rw [if_pos (h 16 (by omega) le_rfl), if_pos]
    rw [underflowFloor_eq]
    norm_num
  | succ j ih =>
    intro hj fuel hfuel h
    obtain ⟨n, rfl⟩ : ∃ n, fuel = n + 1 := ⟨fuel - 1, by omega⟩
    have hgt : fa < f ((1 / 2 : ℝ) ^ (16 - (j + 1) + 1)) :=
      h (16 - (j + 1)) le_rfl (by omega)
    rw [bracketHalve, if_pos hgt, if_neg]
    · rw [show (0.5 : ℝ) * (1 / 2 : ℝ) ^ (16 - (j + 1) + 1) =
          (1 / 2 : ℝ) ^ (16 - j + 1) by
        rw [show 16 - j + 1 = (16 - (j + 1) + 1) + 1 by omega, pow_succ]
        ring]
      exact ih (by omega) n (by omega) fun i hi1 hi2 => h i (by omega) hi2
    · rw [not_lt, underflowFloor_eq]
      exact pow_le_pow_of_le_one (by norm_num) (by norm_num) (by omega)

/-- The per-point log-likelihood contribution at an exact zero residual is
the degenerate limit `log(0.5)`. -/
theorem nllTerm_zero_residual (s fi si mi : ℝ) (h : 1 + s * (mi - 1) - fi = 0) :
    nllTerm s fi si mi = Real.log 0.5 := by
  unfold nllTerm
  rw [if_neg]
  rw [h]
  norm_num [machineEps]

/-- Above the machine-epsilon guard, the per-point contribution is
strictly below the zero-residual limit `log(0.5)`: for `Rsq > 0` one has
`(1 - exp(-Rsq/2))/Rsq < 1/2`. -/
theorem nllTerm_lt_log_half (s fi si mi : ℝ)
    (h : machineEps < ((1 + s * (mi - 1) - fi) / si) ^ 2) :
    nllTerm s fi si mi < Real.log 0.5 := by
  have hepspos : (0 : ℝ) < machineEps := by norm_num [machineEps]
  have hRpos : 0 < ((1 + s * (mi - 1) - fi) / si) ^ 2 := lt_trans hepspos h
  set Rsq := ((1 + s * (mi - 1) - fi) / si) ^ 2 with hRdef
  have hexp : Real.exp (-0.5 * Rsq) < 1 := by
    rw [Real.exp_lt_one_iff]
    nlinarith
  have hnum : 0 < 1 - Real.exp (-0.5 * Rsq) := by linarith
  have hstep : -0.5 * Rsq + 1 < Real.exp (-0.5 * Rsq) :=
    Real.add_one_lt_exp (by nlinarith)
  have hlt : (1 - Real.exp (-0.5 * Rsq)) / Rsq < 0.5 := by
    rw [div_lt_iff₀ hRpos]
    nlinarith
  have heq : nllTerm s fi si mi = Real.log ((1 - Real.exp (-0.5 * Rsq)) / Rsq) := by
    unfold nllTerm
    rw [if_pos h]
  rw [heq]
  exact Real.log_lt_log (div_pos hnum hRpos) hlt

/-- On the fixture `flux = sigma = [1,1,1]`, `model = [1/2, 1, 1]`, any
scale `s` whose single nonzero residual clears the epsilon guard has a
strictly larger negative log-likelihood than `s = 0`. -/
theorem negll_witness_gt (s : ℝ) (h : machineEps < (s / 2) ^ 2) :
    negloglike 0 [1, 1, 1] [1, 1, 1] [1/2, 1, 1] <
      negloglike s [1, 1, 1] [1, 1, 1] [1/2, 1, 1] := by
  have h1 : nllTerm s 1 1 (1/2 : ℝ) < Real.log 0.5 := by
    apply nllTerm_lt_log_half
    rw [show ((1 + s * ((1/2 : ℝ) - 1) - 1) / 1) ^ 2 = (s / 2) ^ 2 by ring]
    exact h
  have h2 : ∀ t : ℝ, nllTerm t 1 1 (1 : ℝ) = Real.log 0.5 := fun t =>
    nllTerm_zero_residual t 1 1 1 (by ring)
  have h3 : nllTerm 0 1 1 (1/2 : ℝ) = Real.log 0.5 :=
    nllTerm_zero_residual 0 1 1 (1/2) (by ring)
  simp only [negloglike, List.zip_cons_cons, List.zip_nil_right,
    List.zipWith_cons_cons, List.zipWith_nil_right, List.sum_cons, List.sum_nil]
  rw [h2 s, h2 0, h3]
  linarith

/-- C3: whenever the minimum entry of `model` is exactly 1 — including
models with entries strictly greater than 1 — `minerr_transit_fit`
returns `(0, 0)` immediately, with no bracketing, optimization, or
confidence-bound search. -/
theorem C3_theorem (fuel : ℕ) (flux sigma model : List ℝ)
    (hN : 3 ≤ flux.length) (hmin : model.min? = some 1) :
    minerr_transit_fit fuel flux sigma model = MinerrOutcome.result 0 0 := by
  unfold minerr_transit_fit
  rw [if_neg (by omega), if_pos hmin]

/-- C3 witness: `model = [1, 3/2, 2]` has minimum 1 but entries above 1;
the function still returns `(0, 0)` at once (any fuel, here 0). -/
theorem C3_witness :
    minerr_transit_fit 0 [1, 1, 1] [1, 1, 1] [1, 3/2, 2] = MinerrOutcome.result 0 0 :=
  C3_theorem 0 [1, 1, 1] [1, 1, 1] [1, 3/2, 2] (by norm_num)
    (by
      rw [List.min?]
      norm_num [List.foldl, min_def])

/-- C8: when the model is everywhere exactly 1 (no signal) and there are
at least 3 points, `minerr_transit_fit` returns `(0, 0)` for any flux and
sigma values. -/
theorem C8_theorem (fuel : ℕ) (flux sigma model : List ℝ)
    (hN : 3 ≤ flux.length) (hlen : model.length = flux.length)
    (h1 : ∀ x ∈ model, x = 1) :
    minerr_transit_fit fuel flux sigma model = MinerrOutcome.result 0 0 := by
  have hne : model ≠ [] := by
    intro h
    rw [h] at hlen
    simp at hlen
    omega
  unfold minerr_transit_fit
  rw [if_neg (by omega), if_pos (min?_all_ones model hne h1)]

/-- C8 witness: a flat model with arbitrary flux and sigma. -/
theorem C8_witness :
    minerr_transit_fit 0 [2, 3, 4] [5, 6, 7] [1, 1, 1] = MinerrOutcome.result 0 0 :=
  C8_theorem 0 [2, 3, 4] [5, 6, 7] [1, 1, 1] (by norm_num) rfl
    (by intro x hx; simpa using hx)

/-- C6: in the bracketing step, when the negative log-likelihood at
`s = 1` is not lower than at `s = 0`, the trial point is halved from
`0.5`; if every trial `(1/2)^(i+1)` for `i ≤ 16` fails to improve on
`s = 0`, the trial drops below `2^-16` and the function returns `(0, 0)`
instead of proceeding to optimization (any fuel of at least 17, which the
loop never exhausts from its entry point). -/
theorem C6_theorem (fuel : ℕ) (flux sigma model : List ℝ)
    (hfuel : 17 ≤ fuel) (hN : 3 ≤ flux.length) (hmin : ¬ model.min? = some 1)
    (hfb : ¬ negloglike 1 flux sigma model < negloglike 0 flux sigma model)
    (htrials : ∀ i : ℕ, i ≤ 16 →
      negloglike 0 flux sigma model < negloglike ((1/2 : ℝ) ^ (i + 1)) flux sigma model) :
    minerr_transit_fit fuel flux sigma model = MinerrOutcome.result 0 0 := by
  have key : bracketHalve (fun s => negloglike s flux sigma model)
      (negloglike 0 flux sigma model) fuel (0.5 : ℝ) = BracketResult.underflow := by
    rw [show (0.5 : ℝ) = (1/2 : ℝ) ^ (16 - 16 + 1) by norm_num]
    exact bracketHalve_underflow _ _ 16 le_rfl fuel (by omega)
      fun i _ hi => htrials i hi
  unfold minerr_transit_fit
  rw [if_neg (by omega), if_neg hmin]
  dsimp only
  rw [if_neg hfb, key]

/-- C6 witness: with `flux = sigma = [1,1,1]` and `model = [1/2, 1, 1]`,
`s = 0` beats `s = 1` and every halved trial, so `minerr_transit_fit`
underflows the bracket search and returns `(0, 0)`. -/
theorem C6_witness :
    minerr_transit_fit 17 [1, 1, 1] [1, 1, 1] [1/2, 1, 1] = MinerrOutcome.result 0 0 :=
  C6_theorem 17 [1, 1, 1] [1, 1, 1] [1/2, 1, 1] le_rfl (by norm_num)
    (by
      rw [List.min?]
      norm_num [List.foldl, min_def])
    (not_lt.mpr (le_of_lt (negll_witness_gt 1 (by norm_num [machineEps]))))
    (fun i hi => negll_witness_gt ((1/2) ^ (i + 1)) (by
      have hlb : (1/2 : ℝ) ^ 17 ≤ (1/2 : ℝ) ^ (i + 1) :=
        pow_le_pow_of_le_one (by norm_num) (by norm_num) (by omega)
      have hsq : ((1/2 : ℝ) ^ 17 / 2) ^ 2 ≤ ((1/2 : ℝ) ^ (i + 1) / 2) ^ 2 := by
        apply pow_le_pow_left₀ (by positivity)
        linarith
      have hcon : machineEps < ((1/2 : ℝ) ^ 17 / 2) ^ 2 := by
        norm_num [machineEps]
      linarith))

end Pycheops
